import Mathlib

/-!
Shallow embedding of the rpi-water-calibration-server repository:

* `I2C_SLF3S_1300F.py` — the `WaterCali` sensor driver (soft reset, probe,
  start/stop continuous measurement, single-sample read, close).  The driver
  is modelled as a pure state machine over `Driver` (whether the bus handle
  was opened, and the `measuring` flag).  The outcome of each physical bus
  transaction is supplied by an environment (`List TxnOutcome`), consumed in
  program order, and every attempted bus operation is recorded in a
  `BusAction` trace.
* `rpi-water-calibration-server.py` — the measurement session
  (`perform_water_measurement`): trapezoidal integration of the sample
  buffer, the fixed-rate drift-correcting sampling loop, the command parser
  (`parse_measure_command`) and the request handler (`handle_message`).
  Python floats are modelled as exact rationals (`ℚ`), Python strings as
  `List Char`, and Python tuples of differing arity as the constructors of
  `PerformResult` so that the unpacking arity at the call site is visible.
-/

namespace WaterCalib

/-! ### Bus-level environment and driver state (`I2C_SLF3S_1300F.py`) -/

/-- Outcome of one attempted I2C transaction, as observed by the Python
`try`/`except` blocks: a successful transfer carrying the read bytes (empty
for writes), an `OSError` with its `errno`, or any other exception. -/
inductive TxnOutcome where
  | ok (data : List Nat)
  | osError (errno : Nat)
  | exn
  deriving DecidableEq

/-- Driver state: `busOpen` is `self.bus is not None`, `measuring` is
`self.measuring`. -/
structure Driver where
  busOpen : Bool
  measuring : Bool
  deriving DecidableEq

/-- One attempted bus operation, recorded in program order. -/
inductive BusAction where
  | write (addr cmd arg : Nat)
  | read (addr reg len : Nat)
  | closeBus
  deriving DecidableEq

/-- Consume the outcome of the next bus transaction from the environment.
An exhausted environment behaves as an exception. -/
def nextOutcome : List TxnOutcome → TxnOutcome × List TxnOutcome
  | [] => (.exn, [])
  | o :: rest => (o, rest)

/-- `WaterCali.soft_reset` (lines 63-86): write `CMD_SOFT_RESET = [0x00, 0x06]`;
on success clear `measuring` and return `True`; on any exception return
`False`.  With `bus is None` it returns `False` without touching the bus. -/
def soft_reset (d : Driver) (txns : List TxnOutcome) :
    Bool × Driver × List TxnOutcome × List BusAction :=
  if d.busOpen = false then (false, d, txns, [])
  else
    match nextOutcome txns with
    | (.ok _, t1) => (true, { d with measuring := false }, t1, [.write 8 0x00 0x06])
    | (_, t1) => (false, d, t1, [.write 8 0x00 0x06])

/-- `WaterCali.test_i2c` (lines 88-148): two product-identifier command
writes (`[0x36, 0x7C]` then `[0xE1, 0x02]`) followed by an 18-byte read.
`OSError` with `errno == 121` (no acknowledgment from the device address)
triggers exactly one automatic `soft_reset` and then returns `False`;
any other `OSError` or exception returns `False` with no reset. -/
def test_i2c (d : Driver) (txns : List TxnOutcome) :
    Bool × Driver × List TxnOutcome × List BusAction :=
  if d.busOpen = false then (false, d, txns, [])
  else
    match nextOutcome txns with
    | (.osError e, t1) =>
        if e = 121 then
          let r := soft_reset d t1
          (false, r.2.1, r.2.2.1, .write 8 0x36 0x7C :: r.2.2.2)
        else (false, d, t1, [.write 8 0x36 0x7C])
    | (.exn, t1) => (false, d, t1, [.write 8 0x36 0x7C])
    | (.ok _, t1) =>
        match nextOutcome t1 with
        | (.osError e, t2) =>
            if e = 121 then
              let r := soft_reset d t2
              (false, r.2.1, r.2.2.1,
                .write 8 0x36 0x7C :: .write 8 0xE1 0x02 :: r.2.2.2)
            else (false, d, t2, [.write 8 0x36 0x7C, .write 8 0xE1 0x02])
        | (.exn, t2) => (false, d, t2, [.write 8 0x36 0x7C, .write 8 0xE1 0x02])
        | (.ok _, t2) =>
            match nextOutcome t2 with
            | (.osError e, t3) =>
                if e = 121 then
                  let r := soft_reset d t3
                  (false, r.2.1, r.2.2.1,
                    .write 8 0x36 0x7C :: .write 8 0xE1 0x02 :: .read 8 0x00 18 :: r.2.2.2)
                else (false, d, t3,
                  [.write 8 0x36 0x7C, .write 8 0xE1 0x02, .read 8 0x00 18])
            | (.exn, t3) => (false, d, t3,
                [.write 8 0x36 0x7C, .write 8 0xE1 0x02, .read 8 0x00 18])
            | (.ok _, t3) => (true, d, t3,
                [.write 8 0x36 0x7C, .write 8 0xE1 0x02, .read 8 0x00 18])

/-- `WaterCali.start_measure` (lines 150-184): `bus is None` fails; already
`measuring` returns `True` immediately with no bus write; otherwise write
`CMD_START_CONTINUOUS_MEASUREMENT = [0x36, 0x08]` and set `measuring` on
success. -/
def start_measure (d : Driver) (txns : List TxnOutcome) :
    Bool × Driver × List TxnOutcome × List BusAction :=
  if d.busOpen = false then (false, d, txns, [])
  else if d.measuring = true then (true, d, txns, [])
  else
    match nextOutcome txns with
    | (.ok _, t1) => (true, { d with measuring := true }, t1, [.write 8 0x36 0x08])
    | (_, t1) => (false, d, t1, [.write 8 0x36 0x08])

/-- `WaterCali.stop_measure` (lines 186-220): `bus is None` fails; not
`measuring` returns `True` immediately with no bus write; otherwise write
`CMD_STOP_CONTINUOUS_MEASUREMENT = [0x3F, 0xF9]` and clear `measuring` on
success. -/
def stop_measure (d : Driver) (txns : List TxnOutcome) :
    Bool × Driver × List TxnOutcome × List BusAction :=
  if d.busOpen = false then (false, d, txns, [])
  else if d.measuring = false then (true, d, txns, [])
  else
    match nextOutcome txns with
    | (.ok _, t1) => (true, { d with measuring := false }, t1, [.write 8 0x3F 0xF9])
    | (_, t1) => (false, d, t1, [.write 8 0x3F 0xF9])

/-- Two's-complement recovery in `WaterCali.read_flow`
(`I2C_SLF3S_1300F.py` lines 243-246): `if flow_raw > 32767: flow_raw -= 65536`. -/
def toSigned16 (v : ℤ) : ℤ := if v > 32767 then v - 65536 else v

/-- The identical conversion applied to the temperature field in the
flow+temperature variant (`water_cali.py` lines 200-203):
`if temp_raw > 32767: temp_raw -= 65536`. -/
def tempToSigned16 (v : ℤ) : ℤ := if v > 32767 then v - 65536 else v

/-- `WaterCali.read_flow` (lines 222-256): valid only with an open bus and
`measuring` set; reads 3 bytes, decodes the first two as a big-endian 16-bit
value, recovers the sign, and divides by the flow scale constant 500.
Any exception yields `None`. -/
def read_flow (d : Driver) (txns : List TxnOutcome) :
    Option ℚ × Driver × List TxnOutcome × List BusAction :=
  if d.busOpen = false then (none, d, txns, [])
  else if d.measuring = false then (none, d, txns, [])
  else
    match nextOutcome txns with
    | (.ok data, t1) =>
        (some ((toSigned16 (((data.getD 0 0) <<< 8) ||| data.getD 1 0) : ℚ) / 500),
          d, t1, [.read 8 0x00 3])
    | (_, t1) => (none, d, t1, [.read 8 0x00 3])

/-- `WaterCali.close` (lines 258-267): if `measuring`, call `stop_measure`
first; then, if the bus handle exists, close it (recorded as `closeBus`).
The Python object keeps `self.bus` set afterwards, so `busOpen` is
unchanged; the release itself is the `closeBus` action. -/
def closeDrv (d : Driver) (txns : List TxnOutcome) :
    Driver × List TxnOutcome × List BusAction :=
  let r := if d.measuring = true then
      ((stop_measure d txns).2.1, (stop_measure d txns).2.2.1, (stop_measure d txns).2.2.2)
    else (d, txns, ([] : List BusAction))
  if r.1.busOpen = true then (r.1, r.2.1, r.2.2 ++ [BusAction.closeBus]) else r

/-- Names of the public driver methods, for reasoning about arbitrary call
sequences against one driver instance. -/
inductive CallName where
  | reset | probe | start | stop | read | close
  deriving DecidableEq

/-- Run one driver method, keeping the state and remaining environment. -/
def runCall (d : Driver) (txns : List TxnOutcome) : CallName → Driver × List TxnOutcome
  | .reset => ((soft_reset d txns).2.1, (soft_reset d txns).2.2.1)
  | .probe => ((test_i2c d txns).2.1, (test_i2c d txns).2.2.1)
  | .start => ((start_measure d txns).2.1, (start_measure d txns).2.2.1)
  | .stop => ((stop_measure d txns).2.1, (stop_measure d txns).2.2.1)
  | .read => ((read_flow d txns).2.1, (read_flow d txns).2.2.1)
  | .close => ((closeDrv d txns).1, (closeDrv d txns).2.1)

/-- Run a sequence of driver method calls and return the final driver state. -/
def runCalls : Driver → List TxnOutcome → List CallName → Driver
  | d, _, [] => d
  | d, txns, c :: cs => runCalls (runCall d txns c).1 (runCall d txns c).2 cs

/-! ### Sampling loop and integrator (`rpi-water-calibration-server.py`) -/

/-- The global `sample_frequency = 500` (Hz). -/
def sample_frequency : ℚ := 500

/-- State of the data-collection loop in `perform_water_measurement`
(lines 65-90): the next scheduled sample time, the buffer of
`(timestamp, flow_ml_min)` pairs, and `measurement_count`. -/
structure LoopState where
  nextTime : ℚ
  buffer : List (ℚ × ℚ)
  count : Nat
  deriving DecidableEq

/-- One iteration body of the sampling loop (lines 74-90).  `now` is the
`time.time()` observed this iteration and `readResult` the result of
`read_flow` (consulted only when the tick is due).  On a due tick with a
successful read, append `(now - start_time, flow)` and advance the schedule
by `sample_interval` from the previous scheduled tick; on a failed read only
a warning is printed; before the scheduled time the loop just sleeps. -/
def loopStep (start_time sample_interval : ℚ) (s : LoopState)
    (now : ℚ) (readResult : Option ℚ) : LoopState :=
  if s.nextTime ≤ now then
    match readResult with
    | some flow =>
        { nextTime := s.nextTime + sample_interval
          buffer := s.buffer ++ [(now - start_time, flow)]
          count := s.count + 1 }
    | none => s
  else s

/-- The `while time.time() - start_time < duration` loop (line 73), driven by
the finite list of iteration observations `(now, readResult)`.  The loop
exits at the first observation whose time has reached the duration. -/
def runLoop (start_time duration sample_interval : ℚ) :
    LoopState → List (ℚ × Option ℚ) → LoopState
  | s, [] => s
  | s, (now, r) :: rest =>
      if now - start_time < duration then
        runLoop start_time duration sample_interval
          (loopStep start_time sample_interval s now r) rest
      else s

/-- Trapezoidal integration (lines 100-108): for each adjacent pair of
samples accumulate `((flow_data[i][1] + flow_data[i-1][1]) / 2) *
((flow_data[i][0] - flow_data[i-1][0]) / 60.0)`.  The Python loop sums the
same trapezoid terms left to right; over `ℚ` the value is identical. -/
def integrate : List (ℚ × ℚ) → ℚ
  | (t0, f0) :: (t1, f1) :: rest =>
      ((f1 + f0) / 2) * ((t1 - t0) / 60) + integrate ((t1, f1) :: rest)
  | _ => 0

/-- Return value of `perform_water_measurement`, with the tuple arity of
each Python `return` made explicit: the three failure returns at lines 58,
62, 97 are 3-tuples `(False, msg, None)`; the success return at line 116 is
the 2-tuple `(True, total_volume_ml)`; the `except` return at line 119 is
the 2-tuple `(False, f"error: {e}")`. -/
inductive PerformResult where
  | tuple3 (ok : Bool) (msg : String)
  | okVolume (volume : ℚ)
  | exnMsg (msg : String)
  deriving DecidableEq

/-- Lines 96-116 of `perform_water_measurement`: fewer than 2 collected
samples is the insufficient-data failure, otherwise the integrated volume
is returned. -/
def finishSession (flow_data : List (ℚ × ℚ)) : PerformResult :=
  if flow_data.length < 2 then .tuple3 false "error: Insufficient data collected"
  else .okVolume (integrate flow_data)

/-- Environment of one measurement session: whether `test_i2c` succeeds,
whether `start_measure` succeeds, an exception optionally raised during data
collection (caught by the `except` clause), and the sampling-loop
observations. -/
structure SessionEnv where
  probeOk : Bool
  startOk : Bool
  raises : Option String
  events : List (ℚ × Option ℚ)
  deriving DecidableEq

/-- The driver methods invoked by `perform_water_measurement`, in order. -/
inductive DriverCall where
  | probeC | startC | stopC | closeC
  deriving DecidableEq

/-- `perform_water_measurement(duration)` (lines 47-121) together with the
trace of driver methods it invokes.  The `finally` block always runs
`water_cali.close()`, so every path ends with `closeC`.  The sample
interval is `1.0 / sample_frequency` (line 69) and the loop schedule starts
at `start_time` (line 68). -/
def performT (start_time duration : ℚ) (env : SessionEnv) :
    PerformResult × List DriverCall :=
  if env.probeOk = false then
    (.tuple3 false "error: I2C connection failed", [.probeC, .closeC])
  else if env.startOk = false then
    (.tuple3 false "error: Failed to start measurement", [.probeC, .startC, .closeC])
  else
    match env.raises with
    | some emsg => (.exnMsg ("error: " ++ emsg), [.probeC, .startC, .closeC])
    | none =>
        (finishSession (runLoop start_time duration (1 / sample_frequency)
            { nextTime := start_time, buffer := [], count := 0 } env.events).buffer,
          [.probeC, .startC, .stopC, .closeC])

/-! ### Command parsing and message handling -/

/-- The character class `\s` of the regex and of `str.strip()`:
space, tab, newline, carriage return, vertical tab, form feed. -/
def isWS (c : Char) : Bool :=
  c == ' ' || c == '\t' || c == '\n' || c == '\r' || c == '\x0b' || c == '\x0c'

/-- `message.strip()`: remove leading and trailing whitespace. -/
def stripChars (cs : List Char) : List Char :=
  ((cs.dropWhile isWS).reverse.dropWhile isWS).reverse

/-- Match a literal at the front of a string, returning the remainder
(used both for `str.startswith` and for the literal part of the regex). -/
def stripLit? : List Char → List Char → Option (List Char)
  | [], cs => some cs
  | _ :: _, [] => none
  | p :: ps, c :: cs => if c = p then stripLit? ps cs else none

/-- The literal `water.measure` of the regex and of the
`startswith` check. -/
def wmList : List Char := "water.measure".toList

/-- Numeric value of a digit string, as produced by `float()` on the
integer part (or the fraction digits) of the captured group. -/
def digitsVal (ds : List Char) : Nat :=
  ds.foldl (fun a c => a * 10 + (c.toNat - 48)) 0

/-- Value of the decimal literal `ds.fs`. -/
def decVal (ds fs : List Char) : ℚ :=
  (digitsVal ds : ℚ) + (digitsVal fs : ℚ) / (10 : ℚ) ^ fs.length

/-- The capture group `(\d+(?:\.\d+)?)` of the regex at line 39, anchored at
the current position: one or more digits, then optionally a dot followed by
one or more digits (if no digit follows the dot, the optional group fails
and only the integer digits are consumed); trailing characters are ignored
because `re.match` does not anchor the end. -/
def parseLeadingNumber (cs : List Char) : Option ℚ :=
  if (cs.takeWhile Char.isDigit).isEmpty = true then none
  else
    match cs.dropWhile Char.isDigit with
    | '.' :: r =>
        if (r.takeWhile Char.isDigit).isEmpty = true then
          some (digitsVal (cs.takeWhile Char.isDigit) : ℚ)
        else some (decVal (cs.takeWhile Char.isDigit) (r.takeWhile Char.isDigit))
    | _ => some (digitsVal (cs.takeWhile Char.isDigit) : ℚ)

/-- The `\s*=\s*(...)` part of the regex, applied after the
`water.measure` literal has matched. -/
def parseAfterKey (rest : List Char) : Option ℚ :=
  match rest.dropWhile isWS with
  | '=' :: rest2 => parseLeadingNumber (rest2.dropWhile isWS)
  | _ => none

/-- `parse_measure_command` (lines 28-45):
`re.match(r'water\.measure\s*=\s*(\d+(?:\.\d+)?)', message.strip())`, and
`float` of the captured group on success. -/
def parse_measure_command (message : List Char) : Option ℚ :=
  match stripLit? wmList (stripChars message) with
  | none => none
  | some rest => parseAfterKey rest

/-- The exception raised by `success, volume = ...` when the right-hand
tuple does not have exactly two elements. -/
inductive PyError where
  | valueError
  deriving DecidableEq

/-- A reply from `handle_message`: either a string, or the raw volume
number (line 149 returns the float itself; the server stringifies it). -/
inductive Reply where
  | text (s : String)
  | num (volume : ℚ)
  deriving DecidableEq

/-- Lines 147-152: unpack `success, volume = perform_water_measurement(..)`
and branch on `success`.  A 3-tuple result does not unpack into two
variables, which raises `ValueError`. -/
def sessionReply : PerformResult → Except PyError Reply
  | .tuple3 _ _ => .error .valueError
  | .okVolume v => .ok (.num v)
  | .exnMsg m => .ok (.text m)

/-- `handle_message` (lines 123-156): strip, check the `water.measure`
prefix, parse the duration, reject non-positive durations, and otherwise run
the measurement session and unpack its result. -/
def handle_message (start_time : ℚ) (env : SessionEnv) (message : List Char) :
    Except PyError Reply :=
  if (stripLit? wmList (stripChars message)).isSome = true then
    match parse_measure_command (stripChars message) with
    | none => .ok (.text "error: Invalid measure command format")
    | some duration =>
        if duration ≤ 0 then .ok (.text "error: Duration must be positive")
        else sessionReply (performT start_time duration env).1
  else .ok (.text "error: Unknown command")

/-- The stripped message text `water.measure = ` used to build request
strings `water.measure = d`. -/
def wmE : List Char := "water.measure = ".toList

/-! ### Claim theorems -/

/-- C1: the session integrator of `perform_water_measurement` fails with the
insufficient-data error on a buffer of exactly one sample, and on the buffer
`[(0 s, 10 mL/min), (60 s, 10 mL/min)]` returns exactly `10.0` mL, the
trapezoidal sum `((f0+f1)/2) * ((t1-t0)/60)` over adjacent pairs. -/
theorem integrator_small_buffer (s : ℚ × ℚ) :
    finishSession [s] = .tuple3 false "error: Insufficient data collected"
    ∧ finishSession [((0 : ℚ), (10 : ℚ)), (60, 10)] = .okVolume 10 := by
  constructor
  · simp [finishSession]
  · norm_num [finishSession, integrate]

/-- Witness for C1 at the concrete single sample `(3 s, 7 mL/min)`. -/
theorem integrator_small_buffer_witness :
    finishSession [((3 : ℚ), (7 : ℚ))] = .tuple3 false "error: Insufficient data collected"
    ∧ finishSession [((0 : ℚ), (10 : ℚ)), (60, 10)] = .okVolume 10 :=
  integrator_small_buffer (3, 7)

/-- C3: for every raw 16-bit wire value `v ∈ [0, 65535]` the signed decoding
of `read_flow` equals `v - 65536` when `v ≥ 32768` and `v` otherwise, always
lies in `[-32768, 32767]`, and the temperature decoding of the
flow+temperature variant applies the identical rule. -/
theorem signed16_decode (v : ℤ) (h0 : 0 ≤ v) (h1 : v ≤ 65535) :
    toSigned16 v = (if 32768 ≤ v then v - 65536 else v)
    ∧ (-32768 ≤ toSigned16 v ∧ toSigned16 v ≤ 32767)
    ∧ tempToSigned16 v = toSigned16 v := by
  refine ⟨?_, ⟨?_, ?_⟩, rfl⟩ <;> simp only [toSigned16] <;> split_ifs <;> omega

/-- Witness for C3 at the wire value `40000`. -/
theorem signed16_decode_witness :
    toSigned16 40000 = (if (32768 : ℤ) ≤ 40000 then 40000 - 65536 else 40000)
    ∧ (-32768 ≤ toSigned16 40000 ∧ toSigned16 40000 ≤ 32767)
    ∧ tempToSigned16 40000 = toSigned16 40000 :=
  signed16_decode 40000 (by norm_num) (by norm_num)

/-- C4: with the bus open, `start_measure` on a driver already in the
`Measuring` state returns success with no bus write and an unchanged state,
and `stop_measure` on a driver already in the `Idle` state returns success
with no bus write and an unchanged state. -/
theorem start_stop_idempotent (d1 d2 : Driver) (txns1 txns2 : List TxnOutcome)
    (h1o : d1.busOpen = true) (h1m : d1.measuring = true)
    (h2o : d2.busOpen = true) (h2m : d2.measuring = false) :
    start_measure d1 txns1 = (true, d1, txns1, [])
    ∧ stop_measure d2 txns2 = (true, d2, txns2, []) := by
  constructor
  · unfold start_measure
    rw [h1o, h1m]
    simp
  · unfold stop_measure
    rw [h2o, h2m]
    simp

/-- Witness for C4 on concrete measuring and idle drivers. -/
theorem start_stop_idempotent_witness :
    start_measure ⟨true, true⟩ [] = (true, ⟨true, true⟩, [], [])
    ∧ stop_measure ⟨true, false⟩ [] = (true, ⟨true, false⟩, [], []) :=
  start_stop_idempotent ⟨true, true⟩ ⟨true, false⟩ [] [] rfl rfl rfl rfl

/-- The trapezoid sum telescopes for a constant flow rate. -/
theorem integrate_const (f : ℚ) (rest : List (ℚ × ℚ)) :
    ∀ t0 : ℚ, (∀ p ∈ rest, p.2 = f) →
      integrate ((t0, f) :: rest)
        = f * ((((t0, f) :: rest).getLast (List.cons_ne_nil _ _)).1 - t0) / 60 := by
  induction rest with
  | nil =>
      intro t0 _
      simp [integrate]
  | cons q rest ih =>
      intro t0 h
      obtain ⟨t1, f1⟩ := q
      have hf1 : f1 = f := h (t1, f1) (List.mem_cons_self _ _)
      rw [hf1]
      have hih := ih t1 (fun p hp => h p (List.mem_cons_of_mem _ hp))
      rw [show integrate ((t0, f) :: (t1, f) :: rest)
            = ((f + f) / 2) * ((t1 - t0) / 60) + integrate ((t1, f) :: rest) from rfl,
        hih, List.getLast_cons (List.cons_ne_nil _ _)]
      ring

/-- C2: for every sample buffer of at least two samples, evenly or unevenly
spaced, all with the same flow rate `f`, the trapezoidal integration of
`perform_water_measurement` returns exactly `f * T` mL, where `T` is the
time spanned by the session's samples expressed in minutes
(`(t_last - t_first) / 60`). -/
theorem integrate_const_flow (t0 : ℚ) (rest : List (ℚ × ℚ)) (f : ℚ)
    (_hlen : 1 ≤ rest.length) (hconst : ∀ p ∈ rest, p.2 = f) :
    integrate ((t0, f) :: rest)
      = f * ((((t0, f) :: rest).getLast (List.cons_ne_nil _ _)).1 - t0) / 60 :=
  integrate_const f rest t0 hconst

/-- Witness for C2 on three unevenly spaced samples of constant flow 5. -/
theorem integrate_const_flow_witness :
    integrate [((0 : ℚ), (5 : ℚ)), (30, 5), (45, 5)] = 15 / 4 := by
  have h := integrate_const_flow 0 [(30, 5), (45, 5)] 5 (by norm_num)
    (by
      intro p hp
      simp only [List.mem_cons, List.not_mem_nil, or_false] at hp
      rcases hp with rfl | rfl <;> rfl)
  norm_num [List.getLast] at h
  linarith [h]

/-- C7: a scheduled tick at which `read_flow` fails appends nothing to the
buffer and leaves the loop state unchanged, and the loop continues with the
remaining ticks rather than aborting; on a successful read the next
scheduled tick is advanced by `sample_interval` from the previous scheduled
tick and the sample is appended. -/
theorem failed_read_skips_tick (start_time duration sample_interval : ℚ)
    (s : LoopState) (now : ℚ) (rest : List (ℚ × Option ℚ))
    (hin : now - start_time < duration) (hdue : s.nextTime ≤ now) :
    runLoop start_time duration sample_interval s ((now, none) :: rest)
      = runLoop start_time duration sample_interval s rest
    ∧ loopStep start_time sample_interval s now none = s
    ∧ ∀ f : ℚ,
        (loopStep start_time sample_interval s now (some f)).nextTime
            = s.nextTime + sample_interval
        ∧ (loopStep start_time sample_interval s now (some f)).buffer
            = s.buffer ++ [(now - start_time, f)] := by
  have hstep : loopStep start_time sample_interval s now none = s := by
    simp [loopStep, hdue]
  refine ⟨?_, hstep, ?_⟩
  · simp only [runLoop, if_pos hin, hstep]
  · intro f
    constructor <;> simp [loopStep, hdue]

/-- Witness for C7 at a due tick one second into a ten-second session. -/
theorem failed_read_skips_tick_witness :
    runLoop 0 10 2 ⟨1, [], 0⟩ [((1 : ℚ), none)] = runLoop 0 10 2 ⟨1, [], 0⟩ []
    ∧ loopStep 0 2 ⟨1, [], 0⟩ 1 none = ⟨1, [], 0⟩
    ∧ ((loopStep 0 2 ⟨1, [], 0⟩ 1 (some 7)).nextTime = 1 + 2
        ∧ (loopStep 0 2 ⟨1, [], 0⟩ 1 (some 7)).buffer = [] ++ [((1 : ℚ) - 0, (7 : ℚ))]) := by
  have h := failed_read_skips_tick 0 10 2 ⟨1, [], 0⟩ 1 [] (by norm_num) (by norm_num)
  exact ⟨h.1, h.2.1, h.2.2 7⟩

/-- With an open bus, a soft reset attempts exactly the reset write,
whatever the transaction outcome. -/
theorem soft_reset_actions (d : Driver) (txns : List TxnOutcome)
    (h : d.busOpen = true) :
    (soft_reset d txns).2.2.2 = [BusAction.write 8 0x00 0x06] := by
  unfold soft_reset
  rw [h]
  rcases txns with _ | ⟨o, rest⟩
  · rfl
  · cases o <;> rfl

/-- C6: when the probe's bus transactions fail with the device-absent fault
code (`errno == 121`) — at the first write, the second write, or the
18-byte read — `test_i2c` performs exactly one automatic `soft_reset` after
the probe actions already attempted and returns failure without retrying
the probe; any other `OSError` code returns failure with no reset. -/
theorem probe_absent_single_reset (d : Driver) (rest : List TxnOutcome)
    (x y : List Nat) (e : Nat) (hopen : d.busOpen = true) (hne : e ≠ 121) :
    ((test_i2c d (.osError 121 :: rest)).1 = false
      ∧ (test_i2c d (.osError 121 :: rest)).2.2.2
          = [.write 8 0x36 0x7C, .write 8 0x00 0x06])
    ∧ ((test_i2c d (.ok x :: .osError 121 :: rest)).1 = false
      ∧ (test_i2c d (.ok x :: .osError 121 :: rest)).2.2.2
          = [.write 8 0x36 0x7C, .write 8 0xE1 0x02, .write 8 0x00 0x06])
    ∧ ((test_i2c d (.ok x :: .ok y :: .osError 121 :: rest)).1 = false
      ∧ (test_i2c d (.ok x :: .ok y :: .osError 121 :: rest)).2.2.2
          = [.write 8 0x36 0x7C, .write 8 0xE1 0x02, .read 8 0x00 18, .write 8 0x00 0x06])
    ∧ ((test_i2c d (.osError e :: rest)).1 = false
      ∧ (test_i2c d (.osError e :: rest)).2.2.2 = [.write 8 0x36 0x7C]) := by
  refine ⟨⟨?_, ?_⟩, ⟨?_, ?_⟩, ⟨?_, ?_⟩, ?_, ?_⟩ <;>
    simp [test_i2c, nextOutcome, hopen, hne, soft_reset_actions d rest hopen]

/-- Witness for C6 on a fresh idle driver and the non-absent code 5. -/
theorem probe_absent_single_reset_witness :
    ((test_i2c ⟨true, false⟩ [.osError 121]).1 = false
      ∧ (test_i2c ⟨true, false⟩ [.osError 121]).2.2.2
          = [.write 8 0x36 0x7C, .write 8 0x00 0x06])
    ∧ ((test_i2c ⟨true, false⟩ [.ok [], .osError 121]).1 = false
      ∧ (test_i2c ⟨true, false⟩ [.ok [], .osError 121]).2.2.2
          = [.write 8 0x36 0x7C, .write 8 0xE1 0x02, .write 8 0x00 0x06])
    ∧ ((test_i2c ⟨true, false⟩ [.ok [], .ok [], .osError 121]).1 = false
      ∧ (test_i2c ⟨true, false⟩ [.ok [], .ok [], .osError 121]).2.2.2
          = [.write 8 0x36 0x7C, .write 8 0xE1 0x02, .read 8 0x00 18, .write 8 0x00 0x06])
    ∧ ((test_i2c ⟨true, false⟩ [.osError 5]).1 = false
      ∧ (test_i2c ⟨true, false⟩ [.osError 5]).2.2.2 = [.write 8 0x36 0x7C]) :=
  probe_absent_single_reset ⟨true, false⟩ [] [] [] 5 rfl (by decide)

/-- `stop_measure` never changes whether the bus handle exists. -/
theorem stop_measure_busOpen (d : Driver) (txns : List TxnOutcome) :
    (stop_measure d txns).2.1.busOpen = d.busOpen := by
  unfold stop_measure
  split_ifs
  · rfl
  · rfl
  · rcases txns with _ | ⟨o, rest⟩
    · rfl
    · cases o <;> rfl

/-- With an open bus and a measurement in progress, `stop_measure` attempts
exactly the stop write, whatever the transaction outcome. -/
theorem stop_measure_actions (d : Driver) (txns : List TxnOutcome)
    (hopen : d.busOpen = true) (hm : d.measuring = true) :
    (stop_measure d txns).2.2.2 = [BusAction.write 8 0x3F 0xF9] := by
  unfold stop_measure
  rw [hopen, hm]
  rcases txns with _ | ⟨o, rest⟩
  · rfl
  · cases o <;> rfl

/-- C8: on every exit path of a measurement session — success, probe
failure, start failure, insufficient data, or an exception raised
mid-session — the `finally` block invokes the driver's `close()` exactly
once, as the last driver call; and `close()` on a driver holding the bus
releases the bus handle and, when the state is `Measuring`, issues the
stop-measurement write first. -/
theorem close_runs_on_every_exit (start_time duration : ℚ) (env : SessionEnv)
    (d : Driver) (txns : List TxnOutcome) (hopen : d.busOpen = true) :
    (∃ tr, (performT start_time duration env).2 = tr ++ [DriverCall.closeC]
        ∧ DriverCall.closeC ∉ tr)
    ∧ BusAction.closeBus ∈ (closeDrv d txns).2.2
    ∧ (d.measuring = true → BusAction.write 8 0x3F 0xF9 ∈ (closeDrv d txns).2.2) := by
  refine ⟨?_, ?_, ?_⟩
  · obtain ⟨p, st, r, ev⟩ := env
    rcases p
    · exact ⟨[DriverCall.probeC], by simp [performT], by simp⟩
    rcases st
    · exact ⟨[DriverCall.probeC, DriverCall.startC], by simp [performT], by simp⟩
    rcases r with _ | msg
    · exact ⟨[DriverCall.probeC, DriverCall.startC, DriverCall.stopC],
        by simp [performT], by simp⟩
    · exact ⟨[DriverCall.probeC, DriverCall.startC], by simp [performT], by simp⟩
  · rcases hm : d.measuring
    · simp [closeDrv, hm, hopen]
    · have hb := stop_measure_busOpen d txns
      rw [hopen] at hb
      simp [closeDrv, hm, hb]
  · intro hm
    have hb := stop_measure_busOpen d txns
    rw [hopen] at hb
    simp [closeDrv, hm, hb, stop_measure_actions d txns hopen hm]

/-- Witness for C8: a successful session environment and a measuring driver. -/
theorem close_runs_on_every_exit_witness :
    (∃ tr, (performT 0 10 ⟨true, true, none, []⟩).2 = tr ++ [DriverCall.closeC]
        ∧ DriverCall.closeC ∉ tr)
    ∧ BusAction.closeBus ∈ (closeDrv ⟨true, true⟩ [.ok []]).2.2
    ∧ (Driver.measuring ⟨true, true⟩ = true →
        BusAction.write 8 0x3F 0xF9 ∈ (closeDrv ⟨true, true⟩ [.ok []]).2.2) :=
  close_runs_on_every_exit 0 10 ⟨true, true, none, []⟩ ⟨true, true⟩ [.ok []] rfl

/-- With no bus handle, every driver method leaves the state and the
environment untouched. -/
theorem runCall_inert (d : Driver) (txns : List TxnOutcome) (c : CallName)
    (hb : d.busOpen = false) :
    runCall d txns c = (d, txns) := by
  cases c <;> rcases hm : d.measuring <;>
    simp [runCall, soft_reset, test_i2c, start_measure, stop_measure, read_flow,
      closeDrv, hb, hm]

/-- With no bus handle, any call sequence leaves the driver unchanged. -/
theorem runCalls_inert (d : Driver) (hb : d.busOpen = false) :
    ∀ (calls : List CallName) (txns : List TxnOutcome), runCalls d txns calls = d := by
  intro calls
  induction calls with
  | nil => intro txns; rfl
  | cons c cs ih =>
      intro txns
      show runCalls (runCall d txns c).1 (runCall d txns c).2 cs = d
      rw [runCall_inert d txns c hb]
      exact ih txns

/-- C10: if the bus handle failed to open (`bus is None`), then
`soft_reset`, `test_i2c`, `start_measure`, `stop_measure`, `read_flow` and
`close` each return a failure value (or do nothing) without any bus action,
and the `measuring` flag remains `False` under every sequence of such
calls. -/
theorem bus_unopened_ops_inert (d : Driver) (txns : List TxnOutcome)
    (hb : d.busOpen = false) (hm : d.measuring = false) :
    soft_reset d txns = (false, d, txns, [])
    ∧ test_i2c d txns = (false, d, txns, [])
    ∧ start_measure d txns = (false, d, txns, [])
    ∧ stop_measure d txns = (false, d, txns, [])
    ∧ read_flow d txns = (none, d, txns, [])
    ∧ closeDrv d txns = (d, txns, [])
    ∧ ∀ (calls : List CallName) (txns2 : List TxnOutcome),
        (runCalls d txns2 calls).measuring = false := by
  refine ⟨?_, ?_, ?_, ?_, ?_, ?_, ?_⟩
  · simp [soft_reset, hb]
  · simp [test_i2c, hb]
  · simp [start_measure, hb]
  · simp [stop_measure, hb]
  · simp [read_flow, hb]
  · simp [closeDrv, hb, hm]
  · intro calls txns2
    rw [runCalls_inert d hb calls txns2]
    exact hm

/-- Witness for C10 on the driver whose bus failed to open. -/
theorem bus_unopened_ops_inert_witness :
    soft_reset ⟨false, false⟩ [] = (false, ⟨false, false⟩, [], [])
    ∧ test_i2c ⟨false, false⟩ [] = (false, ⟨false, false⟩, [], [])
    ∧ start_measure ⟨false, false⟩ [] = (false, ⟨false, false⟩, [], [])
    ∧ stop_measure ⟨false, false⟩ [] = (false, ⟨false, false⟩, [], [])
    ∧ read_flow ⟨false, false⟩ [] = (none, ⟨false, false⟩, [], [])
    ∧ closeDrv ⟨false, false⟩ [] = (⟨false, false⟩, [], [])
    ∧ ∀ (calls : List CallName) (txns2 : List TxnOutcome),
        (runCalls ⟨false, false⟩ txns2 calls).measuring = false :=
  bus_unopened_ops_inert ⟨false, false⟩ [] rfl rfl

/-! ### Parsing lemmas -/

/-- A digit character is not request whitespace. -/
theorem isDigit_not_ws (c : Char) (h : c.isDigit = true) : isWS c = false := by
  have w : ∀ x : Char, x.isDigit = false → (c == x) = false := by
    intro x hdx
    rcases hcx : c == x
    · rfl
    · have hce : c = x := eq_of_beq hcx
      rw [← hce, h] at hdx
      exact absurd hdx (by simp)
  unfold isWS
  rw [w ' ' (by decide), w '\t' (by decide), w '\n' (by decide), w '\r' (by decide),
    w '\x0b' (by decide), w '\x0c' (by decide)]
  rfl

/-- Matching a literal against a string that carries it as a prefix
succeeds and returns the remainder. -/
theorem stripLit_append (p r : List Char) : stripLit? p (p ++ r) = some r := by
  induction p with
  | nil => rfl
  | cons a ps ih => simp [stripLit?, ih]

/-- `takeWhile` keeps a list all of whose elements satisfy the predicate. -/
theorem takeWhile_all (p : Char → Bool) (l : List Char)
    (h : ∀ a ∈ l, p a = true) : l.takeWhile p = l := by
  induction l with
  | nil => rfl
  | cons a t ih =>
      rw [List.takeWhile_cons p a t, if_pos (h a (List.mem_cons_self _ _)),
        ih (fun b hb => h b (List.mem_cons_of_mem _ hb))]

/-- `dropWhile` drops a list all of whose elements satisfy the predicate. -/
theorem dropWhile_all (p : Char → Bool) (l : List Char)
    (h : ∀ a ∈ l, p a = true) : l.dropWhile p = [] := by
  induction l with
  | nil => rfl
  | cons a t ih =>
      rw [List.dropWhile_cons, if_pos (h a (List.mem_cons_self _ _))]
      exact ih (fun b hb => h b (List.mem_cons_of_mem _ hb))

/-- `takeWhile` over an append whose left part satisfies the predicate. -/
theorem takeWhile_append_all (p : Char → Bool) (l l2 : List Char)
    (h : ∀ a ∈ l, p a = true) : (l ++ l2).takeWhile p = l ++ l2.takeWhile p := by
  induction l with
  | nil => rfl
  | cons a t ih =>
      rw [List.cons_append, List.takeWhile_cons p a (t ++ l2),
        if_pos (h a (List.mem_cons_self _ _)),
        ih (fun b hb => h b (List.mem_cons_of_mem _ hb)), List.cons_append]

/-- `dropWhile` over an append whose left part satisfies the predicate. -/
theorem dropWhile_append_all (p : Char → Bool) (l l2 : List Char)
    (h : ∀ a ∈ l, p a = true) : (l ++ l2).dropWhile p = l2.dropWhile p := by
  induction l with
  | nil => rfl
  | cons a t ih =>
      rw [List.cons_append, List.dropWhile_cons, if_pos (h a (List.mem_cons_self _ _))]
      exact ih (fun b hb => h b (List.mem_cons_of_mem _ hb))

/-- `strip()` is the identity on a string whose first and last characters
are not whitespace. -/
theorem stripChars_eq_self (cs : List Char) (c : Char) (t : List Char)
    (e : Char) (es : List Char) (h1 : cs = c :: t) (h2 : cs.reverse = e :: es)
    (hc : isWS c = false) (he : isWS e = false) : stripChars cs = cs := by
  unfold stripChars
  rw [h1, List.dropWhile_cons, if_neg (by simp [hc]), ← h1, h2,
    List.dropWhile_cons, if_neg (by simp [he]), ← h2, List.reverse_reverse]

/-- A nonempty all-digit string reversed starts with a non-whitespace
character. -/
theorem rev_head_of_digits (l : List Char) (hne : l ≠ [])
    (hdig : ∀ c ∈ l, c.isDigit = true) :
    ∃ e es, l.reverse = e :: es ∧ isWS e = false := by
  obtain ⟨e, es, h⟩ := List.exists_cons_of_ne_nil (show l.reverse ≠ [] by simp [hne])
  refine ⟨e, es, h, ?_⟩
  have he : e ∈ l := List.mem_reverse.mp (h ▸ List.mem_cons_self e es)
  exact isDigit_not_ws e (hdig e he)

/-- A decimal literal `ds.fs` reversed starts with a non-whitespace
character. -/
theorem rev_head_frac (ds fs : List Char) (hfne : fs ≠ [])
    (hfdig : ∀ c ∈ fs, c.isDigit = true) :
    ∃ e es, (ds ++ '.' :: fs).reverse = e :: es ∧ isWS e = false := by
  obtain ⟨e, es, h, hws⟩ := rev_head_of_digits fs hfne hfdig
  refine ⟨e, es ++ '.' :: ds.reverse, ?_, hws⟩
  rw [List.reverse_append, List.reverse_cons, h]
  simp

/-- The request literal split at its `water.measure` part. -/
theorem wmE_eq : wmE = wmList ++ [' ', '=', ' '] := rfl

/-- Stripping `water.measure = d` is the identity when `d` ends in a
non-whitespace character. -/
theorem strip_wm_msg (d : List Char) (e : Char) (es : List Char)
    (hrev : d.reverse = e :: es) (hws : isWS e = false) :
    stripChars (wmE ++ d) = wmE ++ d := by
  refine stripChars_eq_self (wmE ++ d) 'w' ("ater.measure = ".toList ++ d) e
    (es ++ wmE.reverse) ?_ ?_ (by decide) hws
  · rfl
  · rw [List.reverse_append, hrev]
    rfl

/-- On a pre-stripped request `water.measure = d` whose duration text starts
with a non-whitespace character, `parse_measure_command` reduces to the
numeric capture group applied to `d`. -/
theorem parse_wm_aux (d : List Char) (hstrip : stripChars (wmE ++ d) = wmE ++ d)
    (c : Char) (t : List Char) (hd : d = c :: t) (hc : isWS c = false) :
    parse_measure_command (wmE ++ d) = parseLeadingNumber d := by
  have hsp : isWS ' ' = true := by decide
  unfold parse_measure_command
  rw [hstrip, show wmE ++ d = wmList ++ ([' ', '=', ' '] ++ d) by rw [wmE_eq]; simp,
    stripLit_append, hd]
  show parseAfterKey ([' ', '=', ' '] ++ (c :: t)) = parseLeadingNumber (c :: t)
  unfold parseAfterKey
  have hdw1 : ([' ', '=', ' '] ++ (c :: t)).dropWhile isWS = '=' :: ' ' :: c :: t := by
    rw [show [' ', '=', ' '] ++ (c :: t) = ' ' :: '=' :: ' ' :: c :: t from rfl,
      List.dropWhile_cons, if_pos hsp, List.dropWhile_cons, if_neg (by decide)]
  rw [hdw1]
  show parseLeadingNumber ((' ' :: c :: t).dropWhile isWS) = parseLeadingNumber (c :: t)
  rw [List.dropWhile_cons, if_pos hsp, List.dropWhile_cons, if_neg (by simp [hc])]

/-- The capture group on a nonempty all-digit string. -/
theorem parseLeadingNumber_int (ds : List Char) (hne : ds ≠ [])
    (hdig : ∀ c ∈ ds, c.isDigit = true) :
    parseLeadingNumber ds = some (digitsVal ds : ℚ) := by
  unfold parseLeadingNumber
  rw [takeWhile_all Char.isDigit ds hdig, dropWhile_all Char.isDigit ds hdig]
  rcases ds with _ | ⟨a, t⟩
  · exact absurd rfl hne
  · rfl

/-- The capture group on a decimal literal `ds.fs`. -/
theorem parseLeadingNumber_frac (ds fs : List Char) (hne : ds ≠ [])
    (hdig : ∀ c ∈ ds, c.isDigit = true) (hfne : fs ≠ [])
    (hfdig : ∀ c ∈ fs, c.isDigit = true) :
    parseLeadingNumber (ds ++ '.' :: fs) = some (decVal ds fs) := by
  have hdot : ('.' : Char).isDigit = false := by decide
  have htw : ('.' :: fs).takeWhile Char.isDigit = [] := by
    rw [List.takeWhile_cons, hdot]
    simp
  have hdw : ('.' :: fs).dropWhile Char.isDigit = '.' :: fs := by
    rw [List.dropWhile_cons, hdot]
    simp
  unfold parseLeadingNumber
  rw [takeWhile_append_all Char.isDigit ds ('.' :: fs) hdig,
    dropWhile_append_all Char.isDigit ds ('.' :: fs) hdig, htw, hdw, List.append_nil]
  rcases ds with _ | ⟨a, t⟩
  · exact absurd rfl hne
  · show (if (fs.takeWhile Char.isDigit).isEmpty = true
        then some ((digitsVal (a :: t) : ℚ))
        else some (decVal (a :: t) (fs.takeWhile Char.isDigit)))
      = some (decVal (a :: t) fs)
    rw [takeWhile_all Char.isDigit fs hfdig]
    rcases fs with _ | ⟨b, u⟩
    · exact absurd rfl hfne
    · rfl

/-- `handle_message` on a well-formed request `water.measure = d` reduces to
the duration-sign check followed by the session dispatch. -/
theorem handle_wm (start_time : ℚ) (env : SessionEnv) (d : List Char) (v : ℚ)
    (hstrip : stripChars (wmE ++ d) = wmE ++ d)
    (hparse : parse_measure_command (wmE ++ d) = some v) :
    handle_message start_time env (wmE ++ d)
      = if v ≤ 0 then .ok (.text "error: Duration must be positive")
        else sessionReply (performT start_time v env).1 := by
  have hsome : (stripLit? wmList (stripChars (wmE ++ d))).isSome = true := by
    rw [hstrip, show wmE ++ d = wmList ++ ([' ', '=', ' '] ++ d) by rw [wmE_eq]; simp,
      stripLit_append]
    rfl
  unfold handle_message
  rw [if_pos hsome, hstrip, hparse]

/-- `handle_message` on any request whose stripped text passes the
`water.measure` prefix check and parses to a positive duration dispatches a
measurement session and unpacks its result. -/
theorem handle_dispatch (start_time : ℚ) (env : SessionEnv) (msg : List Char)
    (v : ℚ) (hv : 0 < v)
    (hsome : (stripLit? wmList (stripChars msg)).isSome = true)
    (hparse : parse_measure_command (stripChars msg) = some v) :
    handle_message start_time env msg = sessionReply (performT start_time v env).1 := by
  unfold handle_message
  rw [if_pos hsome, hparse]
  show (if v ≤ 0 then Except.ok (Reply.text "error: Duration must be positive")
      else sessionReply (performT start_time v env).1)
    = sessionReply (performT start_time v env).1
  rw [if_neg (not_le.mpr hv)]

/-- C5 counterexample: the request `water.measure = 0` carries the
non-negative decimal `0`, yet the handler rejects it with the
duration-must-be-positive reply instead of dispatching a measurement
session — with this probe-failing environment a dispatched session would
have produced the `ValueError` outcome, not a text reply. -/
theorem measure_zero_not_dispatched :
    handle_message 0 ⟨false, true, none, []⟩ "water.measure = 0".toList
      = .ok (.text "error: Duration must be positive")
    ∧ sessionReply (performT 0 0 ⟨false, true, none, []⟩).1 = .error .valueError := by
  exact ⟨rfl, rfl⟩

/-- C5 (amended): every request `water.measure = d` with `d` a non-negative
decimal literal (digits, optionally dot and digits) is recognized — the
parser returns its decimal value — and is dispatched to a measurement
session exactly when that value is positive; a zero value is rejected with
`error: Duration must be positive` instead of being dispatched.  Parsing
`water.measure = 2.5` yields `2.5`, while `water.measure=abc` and `foo.bar`
yield error replies. -/
theorem measure_command_recognition (start_time : ℚ) (env : SessionEnv)
    (ds fs : List Char) (hne : ds ≠ []) (hdig : ∀ c ∈ ds, c.isDigit = true)
    (hfne : fs ≠ []) (hfdig : ∀ c ∈ fs, c.isDigit = true) :
    parse_measure_command (wmE ++ ds) = some (digitsVal ds : ℚ)
    ∧ parse_measure_command (wmE ++ (ds ++ '.' :: fs)) = some (decVal ds fs)
    ∧ (0 < (digitsVal ds : ℚ) →
        handle_message start_time env (wmE ++ ds)
          = sessionReply (performT start_time (digitsVal ds : ℚ) env).1)
    ∧ ((digitsVal ds : ℚ) = 0 →
        handle_message start_time env (wmE ++ ds)
          = .ok (.text "error: Duration must be positive"))
    ∧ (0 < decVal ds fs →
        handle_message start_time env (wmE ++ (ds ++ '.' :: fs))
          = sessionReply (performT start_time (decVal ds fs) env).1)
    ∧ (decVal ds fs = 0 →
        handle_message start_time env (wmE ++ (ds ++ '.' :: fs))
          = .ok (.text "error: Duration must be positive"))
    ∧ parse_measure_command "water.measure = 2.5".toList = some ((5 : ℚ) / 2)
    ∧ handle_message start_time env "water.measure=abc".toList
        = .ok (.text "error: Invalid measure command format")
    ∧ handle_message start_time env "foo.bar".toList
        = .ok (.text "error: Unknown command") := by
  obtain ⟨c0, t0, hd0⟩ := List.exists_cons_of_ne_nil hne
  have hc0 : isWS c0 = false :=
    isDigit_not_ws c0 (hdig c0 (hd0 ▸ List.mem_cons_self c0 t0))
  obtain ⟨e1, es1, hrev1, hws1⟩ := rev_head_of_digits ds hne hdig
  have hstrip1 : stripChars (wmE ++ ds) = wmE ++ ds := strip_wm_msg ds e1 es1 hrev1 hws1
  have hparse1 : parse_measure_command (wmE ++ ds) = some (digitsVal ds : ℚ) :=
    (parse_wm_aux ds hstrip1 c0 t0 hd0 hc0).trans (parseLeadingNumber_int ds hne hdig)
  obtain ⟨e2, es2, hrev2, hws2⟩ := rev_head_frac ds fs hfne hfdig
  have hstrip2 : stripChars (wmE ++ (ds ++ '.' :: fs)) = wmE ++ (ds ++ '.' :: fs) :=
    strip_wm_msg (ds ++ '.' :: fs) e2 es2 hrev2 hws2
  have hparse2 : parse_measure_command (wmE ++ (ds ++ '.' :: fs)) = some (decVal ds fs) :=
    (parse_wm_aux (ds ++ '.' :: fs) hstrip2 c0 (t0 ++ '.' :: fs)
        (by rw [hd0, List.cons_append]) hc0).trans
      (parseLeadingNumber_frac ds fs hne hdig hfne hfdig)
  obtain ⟨e3, es3, hrev3, hws3⟩ := rev_head_frac ['2'] ['5'] (by decide) (by decide)
  have hstrip3 : stripChars (wmE ++ (['2'] ++ '.' :: ['5'])) = wmE ++ (['2'] ++ '.' :: ['5']) :=
    strip_wm_msg (['2'] ++ '.' :: ['5']) e3 es3 hrev3 hws3
  have hparse3 : parse_measure_command (wmE ++ (['2'] ++ '.' :: ['5']))
      = some (decVal ['2'] ['5']) :=
    (parse_wm_aux (['2'] ++ '.' :: ['5']) hstrip3 '2' ('.' :: ['5']) rfl (by decide)).trans
      (parseLeadingNumber_frac ['2'] ['5'] (by decide) (by decide) (by decide) (by decide))
  have hdec25 : decVal ['2'] ['5'] = (5 : ℚ) / 2 := by
    have h2 : ('2'.toNat - 48) = 2 := rfl
    have h5 : ('5'.toNat - 48) = 5 := rfl
    norm_num [decVal, digitsVal, h2, h5]
  refine ⟨hparse1, hparse2, ?_, ?_, ?_, ?_, ?_, rfl, rfl⟩
  · intro hpos
    rw [handle_wm start_time env ds (digitsVal ds : ℚ) hstrip1 hparse1,
      if_neg (not_le.mpr hpos)]
  · intro h0
    rw [handle_wm start_time env ds (digitsVal ds : ℚ) hstrip1 hparse1,
      if_pos (le_of_eq h0)]
  · intro hpos
    rw [handle_wm start_time env (ds ++ '.' :: fs) (decVal ds fs) hstrip2 hparse2,
      if_neg (not_le.mpr hpos)]
  · intro h0
    rw [handle_wm start_time env (ds ++ '.' :: fs) (decVal ds fs) hstrip2 hparse2,
      if_pos (le_of_eq h0)]
  · rw [show "water.measure = 2.5".toList = wmE ++ (['2'] ++ '.' :: ['5']) from rfl,
      hparse3, hdec25]

/-- Witness for C5 (amended) at the literals `2` and `2.5` with a
successful session environment. -/
theorem measure_command_recognition_witness :
    parse_measure_command (wmE ++ ['2']) = some (digitsVal ['2'] : ℚ)
    ∧ parse_measure_command (wmE ++ (['2'] ++ '.' :: ['5'])) = some (decVal ['2'] ['5'])
    ∧ handle_message 0 ⟨true, true, none, []⟩ (wmE ++ ['2'])
        = sessionReply (performT 0 (digitsVal ['2'] : ℚ) ⟨true, true, none, []⟩).1
    ∧ parse_measure_command "water.measure = 2.5".toList = some ((5 : ℚ) / 2) := by
  have h := measure_command_recognition 0 ⟨true, true, none, []⟩ ['2'] ['5']
    (by decide) (by decide) (by decide) (by decide)
  have h2 : ('2'.toNat - 48) = 2 := rfl
  exact ⟨h.1, h.2.1, h.2.2.1 (by norm_num [digitsVal, h2]), h.2.2.2.2.2.2.1⟩

/-- C9: whenever a measurement session fails at the probe step, the start
step, or the insufficient-data check, `perform_water_measurement` returns a
3-element tuple, and `handle_message`, which unpacks the result into
exactly two variables, raises `ValueError` instead of returning the typed
`error:` reply. -/
theorem failure_tuple_unpack_valueerror (start_time : ℚ) (env : SessionEnv)
    (msg : List Char) (v : ℚ) (hv : 0 < v)
    (hsome : (stripLit? wmList (stripChars msg)).isSome = true)
    (hparse : parse_measure_command (stripChars msg) = some v) :
    (env.probeOk = false →
        (performT start_time v env).1 = .tuple3 false "error: I2C connection failed"
        ∧ handle_message start_time env msg = .error .valueError)
    ∧ (env.probeOk = true → env.startOk = false →
        (performT start_time v env).1 = .tuple3 false "error: Failed to start measurement"
        ∧ handle_message start_time env msg = .error .valueError)
    ∧ (env.probeOk = true → env.startOk = true → env.raises = none →
        (runLoop start_time v (1 / sample_frequency)
            ⟨start_time, [], 0⟩ env.events).buffer.length < 2 →
        (performT start_time v env).1 = .tuple3 false "error: Insufficient data collected"
        ∧ handle_message start_time env msg = .error .valueError) := by
  have hh := handle_dispatch start_time env msg v hv hsome hparse
  refine ⟨?_, ?_, ?_⟩
  · intro hp
    have hperf : (performT start_time v env).1
        = .tuple3 false "error: I2C connection failed" := by
      simp [performT, hp]
    exact ⟨hperf, by rw [hh, hperf]; rfl⟩
  · intro hp hs
    have hperf : (performT start_time v env).1
        = .tuple3 false "error: Failed to start measurement" := by
      simp [performT, hp, hs]
    exact ⟨hperf, by rw [hh, hperf]; rfl⟩
  · intro hp hs hr hlen
    have hperf : (performT start_time v env).1
        = .tuple3 false "error: Insufficient data collected" := by
      have hlen2 := hlen
      rw [one_div] at hlen2
      simp [performT, hp, hs, hr, finishSession, hlen2]
    exact ⟨hperf, by rw [hh, hperf]; rfl⟩

/-- Witness for C9: the request `water.measure = 2` against a session whose
probe fails makes the handler raise `ValueError`. -/
theorem failure_tuple_unpack_valueerror_witness :
    handle_message 0 ⟨false, true, none, []⟩ "water.measure = 2".toList
      = .error .valueError := by
  have h := failure_tuple_unpack_valueerror 0 ⟨false, true, none, []⟩
    "water.measure = 2".toList 2 (by norm_num) (by rfl) (by rfl)
  exact (h.1 rfl).2

end WaterCalib
